import Mathlib

/-!
Verification of the `shared-file` positional-cursor library (`src/lib.rs`).

The embedding models machine integers with `Nat` (u64) and `Int` (i64),
carrying the bounds `2 ^ 64` and `2 ^ 63` explicitly where the Rust code
performs checked conversions or where overflow matters.  File contents are
modelled as `List Nat` (byte lists); the OS positional-read primitive
`read_at` and the metadata length query are modelled as pure functions or
as explicit `IoResult` parameters, so that fallibility of the underlying
primitives stays visible.
-/

namespace SharedFileSpec

/-- Number of values of a u64: positions are valid u64 values when `< u64Size`. -/
def u64Size : Nat := 2 ^ 64

/-- Largest u64 value representable as an i64 (`i64::MAX`), as a `Nat`. -/
def i64MaxN : Nat := 2 ^ 63 - 1

/-- `i64::MAX` as an `Int`. -/
def i64Max : Int := 2 ^ 63 - 1

/-- `i64::MIN` as an `Int`. -/
def i64Min : Int := -(2 ^ 63)

/-- Error kinds of `std::io::Error` that the library produces or propagates:
`io::ErrorKind::InvalidInput` for seek-arithmetic failures, and an opaque
kind for errors surfaced verbatim from the underlying read/metadata
primitives. -/
inductive ErrorKind where
  | invalidInput
  | otherIo
deriving DecidableEq, Repr

/-- Model of `std::io::Error`: a kind plus a descriptive message. -/
structure IoError where
  kind : ErrorKind
  msg : String
deriving DecidableEq, Repr

deriving instance DecidableEq for Except

/-- Model of `std::io::Result`. -/
abbrev IoResult (α : Type) := Except IoError α

/-- `fn u64_from(x: usize) -> u64` (src/lib.rs:9-11): converts a `usize`
byte count to `u64`.  Both are modelled as `Nat`, where the conversion is
the identity (the `expect` never fires: every usize value fits in u64 on
the supported platforms). -/
def u64_from (x : Nat) : Nat := x

/-- `struct SharedFile<F>` (src/lib.rs:19-22): a file handle plus a private
u64 seek position. -/
structure SharedFile (F : Type) where
  file : F
  pos : Nat
deriving DecidableEq, Repr

/-- `SharedFile::new` (src/lib.rs:46-54): wraps a handle, position 0. -/
def SharedFile.new (file : F) : SharedFile F :=
  { file := file, pos := 0 }

/-- `impl Clone for SharedFile` (src/lib.rs:73-79): clones the handle
(same underlying file) and resets the position to 0. -/
def SharedFile.clone (s : SharedFile F) : SharedFile F :=
  { file := s.file, pos := 0 }

/-- `a.clone()` as an operation returning both the (unchanged, borrowed)
original and the new cursor, making the frame effect on the original
explicit. -/
def SharedFile.cloneOp (s : SharedFile F) : SharedFile F × SharedFile F :=
  (s, s.clone)

/-- `u64::try_into::<i64>()` then `.ok()`: succeeds exactly when the value
is at most `i64::MAX`. -/
def u64_try_into_i64 (x : Nat) : Option Int :=
  if x ≤ i64MaxN then some (x : Int) else none

/-- `i64::checked_add`: succeeds exactly when the mathematical sum stays in
the i64 range. -/
def i64_checked_add (a b : Int) : Option Int :=
  if i64Min ≤ a + b ∧ a + b ≤ i64Max then some (a + b) else none

/-- `i64::try_into::<u64>()` then `.ok()`: succeeds exactly when the value
is non-negative (every non-negative i64 fits in u64). -/
def i64_try_into_u64 (x : Int) : Option Nat :=
  if 0 ≤ x then some x.toNat else none

/-- `fn calc_pos(pos: u64, offset: i64) -> io::Result<u64>`
(src/lib.rs:99-109): convert `pos` to i64, `checked_add` the offset,
convert back to u64; any `None` along the chain becomes an
`InvalidInput` error with message `"seek overflow"`. -/
def calc_pos (pos : Nat) (offset : Int) : IoResult Nat :=
  match ((u64_try_into_i64 pos).bind fun p => i64_checked_add p offset).bind
      i64_try_into_u64 with
  | some p => Except.ok p
  | none => Except.error ⟨ErrorKind.invalidInput, "seek overflow"⟩

/-- The spec's arithmetic policy, transcribed from its own words
(spec §4.1, "Arithmetic policy (exact, must be reproduced)"): fail if the
base exceeds the signed range; fail if the signed addition overflows; fail
if the result is negative; each failure is the single invalid-input
error.  Stated separately from `calc_pos` so the two can be compared. -/
def calc_pos_specPolicy (base : Nat) (delta : Int) : IoResult Nat :=
  if (base : Int) > i64Max then
    Except.error ⟨ErrorKind.invalidInput, "seek overflow"⟩
  else if (base : Int) + delta > i64Max ∨ (base : Int) + delta < i64Min then
    Except.error ⟨ErrorKind.invalidInput, "seek overflow"⟩
  else if (base : Int) + delta < 0 then
    Except.error ⟨ErrorKind.invalidInput, "seek overflow"⟩
  else
    Except.ok ((base : Int) + delta).toNat

/-- `std::io::SeekFrom`: the three addressing modes. -/
inductive SeekFrom where
  | fromStart (n : Nat)
  | fromEnd (delta : Int)
  | fromCurrent (delta : Int)
deriving DecidableEq, Repr

/-- `impl Seek for SharedFile` / `fn seek` (src/lib.rs:97-125).  The
outcome of `self.file.metadata()?.len()` (the only I/O the function can
perform) is passed in as `metadataLen`; the `Start` and `Current` branches
never consult it, mirroring that they perform no I/O.  Note the source's
`End` and `Current` branches return `calc_pos(..)` without assigning
`self.pos`; the embedding reproduces this faithfully. -/
def SharedFile.seek (s : SharedFile F) (target : SeekFrom)
    (metadataLen : IoResult Nat) : IoResult Nat × SharedFile F :=
  match target with
  | SeekFrom.fromStart spos => (Except.ok spos, { s with pos := spos })
  | SeekFrom.fromEnd epos =>
    match metadataLen with
    | Except.error e => (Except.error e, s)
    | Except.ok file_len => (calc_pos file_len epos, s)
  | SeekFrom.fromCurrent cpos => (calc_pos s.pos cpos, s)

/-- The OS positional-read primitive `File::read_at(buf, pos)` under the
standard model: reading `bufLen` bytes at offset `pos` of a file with
contents `data` yields the next `min bufLen (data.length - pos)` bytes
(0 bytes at or past end-of-file). -/
def read_at (data : List Nat) (bufLen : Nat) (pos : Nat) : List Nat :=
  (data.drop pos).take bufLen

/-- `impl Read for SharedFile` / `fn read` (src/lib.rs:86-90), abstracted
over the outcome of the underlying `read_at` call: on primitive error the
error propagates (`?`) before `self.pos` is touched; on success the
position advances by the byte count and the filled buffer is returned. -/
def SharedFile.readWith (s : SharedFile F) (primResult : IoResult (List Nat)) :
    IoResult (List Nat) × SharedFile F :=
  match primResult with
  | Except.error e => (Except.error e, s)
  | Except.ok buf =>
    (Except.ok buf, { s with pos := s.pos + u64_from buf.length })

/-- `fn read` specialised to a cursor over concrete file contents, with the
primitive behaving per the positional-read model `read_at`. -/
def SharedFile.read (s : SharedFile (List Nat)) (bufLen : Nat) :
    IoResult (List Nat) × SharedFile (List Nat) :=
  s.readWith (Except.ok (read_at s.file bufLen s.pos))

/-- A two-cursor system sharing one file: perform `read` on the first
cursor, pass the second through untouched by the operation's own state
update.  Used to state frame effects between duplicated cursors. -/
def readFst (p : SharedFile (List Nat) × SharedFile (List Nat))
    (bufLen : Nat) :
    IoResult (List Nat) × (SharedFile (List Nat) × SharedFile (List Nat)) :=
  ((p.1.read bufLen).1, ((p.1.read bufLen).2, p.2))

/-- Canonical closed form of `calc_pos`: the chain succeeds exactly when the
base fits in i64, the sum stays in the i64 range and is non-negative, and
then returns the sum; otherwise it is the single invalid-input error. -/
theorem calc_pos_eq (pos : Nat) (offset : Int) :
    calc_pos pos offset =
      if pos ≤ i64MaxN ∧ i64Min ≤ (pos : Int) + offset ∧
          (pos : Int) + offset ≤ i64Max ∧ 0 ≤ (pos : Int) + offset then
        Except.ok ((pos : Int) + offset).toNat
      else Except.error ⟨ErrorKind.invalidInput, "seek overflow"⟩ := by
  unfold calc_pos u64_try_into_i64 i64_checked_add i64_try_into_u64
  by_cases h1 : pos ≤ i64MaxN
  · rw [if_pos h1, Option.some_bind]
    by_cases h2 : i64Min ≤ (pos : Int) + offset ∧ (pos : Int) + offset ≤ i64Max
    · rw [if_pos h2, Option.some_bind]
      by_cases h3 : (0 : Int) ≤ (pos : Int) + offset
      · rw [if_pos h3, if_pos ⟨h1, h2.1, h2.2, h3⟩]
      · rw [if_neg h3, if_neg (by tauto)]
    · rw [if_neg h2, Option.none_bind, if_neg (by tauto)]
  · rw [if_neg h1, Option.none_bind, Option.none_bind, if_neg (by tauto)]

/-- C1: the claim says a successful seek in from-current (or from-end) mode
updates the stored position to the returned offset.  The code violates
this: at a cursor with stored position 0, `seek(Current(5))` returns
`Ok(5)` but the stored position stays 0, because the `Current` (and `End`)
branches of `seek` return `calc_pos(..)` without assigning `self.pos`. -/
theorem seek_current_returns_without_update :
    (SharedFile.seek (⟨(), 0⟩ : SharedFile Unit) (SeekFrom.fromCurrent 5)
      (Except.ok 0)).1 = Except.ok 5 ∧
    (SharedFile.seek (⟨(), 0⟩ : SharedFile Unit) (SeekFrom.fromCurrent 5)
      (Except.ok 0)).2.pos = 0 := by
  decide

/-- C2: the claim says the stored position is updated if and only if the
operation fully succeeds.  The code violates the forward direction: at a
cursor with stored position 0 over a file of length 11, `seek(End(-5))`
fully succeeds with `Ok(6)`, yet the stored position remains 0 instead of
being updated to 6. -/
theorem seek_end_success_leaves_pos_stale :
    (SharedFile.seek (⟨(), 0⟩ : SharedFile Unit) (SeekFrom.fromEnd (-5))
      (Except.ok 11)).1 = Except.ok 6 ∧
    (SharedFile.seek (⟨(), 0⟩ : SharedFile Unit) (SeekFrom.fromEnd (-5))
      (Except.ok 11)).2.pos = 0 := by
  decide

/-- C3 counterexample: the claim as stated quantifies over every file
length `L`, but at `L = 2 ^ 63` (exceeding `i64::MAX`) with `d = 0`, the
seek does not succeed with `L - d`: the base conversion to i64 fails, so
the seek returns the invalid-input error. -/
theorem seek_end_huge_length_rejected :
    (SharedFile.seek (⟨(), 0⟩ : SharedFile Unit)
      (SeekFrom.fromEnd (-(0 : Int))) (Except.ok (2 ^ 63))).1 =
      Except.error ⟨ErrorKind.invalidInput, "seek overflow"⟩ := by
  decide

/-- C3 (amended): for every file length `L ≤ i64::MAX` and every `d` with
`0 ≤ d ≤ L`, seeking from-end with delta `-d` succeeds returning `L - d`;
and for every i64 delta making the computed position negative, the seek
fails with the invalid-input error. -/
theorem seek_from_end_correct :
    (∀ (s : SharedFile Unit) (L d : Nat), L ≤ i64MaxN → d ≤ L →
      (s.seek (SeekFrom.fromEnd (-(d : Int))) (Except.ok L)).1 =
        Except.ok (L - d)) ∧
    (∀ (s : SharedFile Unit) (L : Nat) (delta : Int), i64Min ≤ delta →
      (L : Int) + delta < 0 →
      (s.seek (SeekFrom.fromEnd delta) (Except.ok L)).1 =
        Except.error ⟨ErrorKind.invalidInput, "seek overflow"⟩) := by
  constructor
  · intro s L d hL hd
    show calc_pos L (-(d : Int)) = Except.ok (L - d)
    rw [calc_pos_eq]
    have hd' : (d : Int) ≤ (L : Int) := by exact_mod_cast hd
    have hL' : (L : Int) ≤ i64Max := by
      unfold i64Max
      unfold i64MaxN at hL
      omega
    rw [if_pos ⟨hL, by unfold i64Min; omega, by omega, by omega⟩]
    congr 1
    omega
  · intro s L delta hmin hneg
    show calc_pos L delta = Except.error ⟨ErrorKind.invalidInput, "seek overflow"⟩
    rw [calc_pos_eq]
    rw [if_neg (by omega)]

/-- C3 witness: for a file of length 11, seek from-end by -5 returns 6,
and seek from-end by -12 (computed position -1) fails with the
invalid-input error. -/
theorem seek_from_end_correct_witness :
    (SharedFile.seek (⟨(), 0⟩ : SharedFile Unit) (SeekFrom.fromEnd (-(5 : Int)))
      (Except.ok 11)).1 = Except.ok 6 ∧
    (SharedFile.seek (⟨(), 0⟩ : SharedFile Unit) (SeekFrom.fromEnd (-12))
      (Except.ok 11)).1 =
      Except.error ⟨ErrorKind.invalidInput, "seek overflow"⟩ :=
  ⟨seek_from_end_correct.1 ⟨(), 0⟩ 11 5 (by decide) (by decide),
    seek_from_end_correct.2 ⟨(), 0⟩ 11 (-12) (by decide) (by decide)⟩

/-- C4: `calc_pos` follows exactly the spec's conversion chain (proved as
an equality with `calc_pos_specPolicy`, a transcription of the spec's
words); its outcome is either a success or the single invalid-input
"seek overflow" error; and the from-current and from-end branches of
`seek` never mutate the stored position (in particular not on failure). -/
theorem calc_pos_follows_policy (base : Nat) (delta : Int) :
    calc_pos base delta = calc_pos_specPolicy base delta ∧
    ((∃ p, calc_pos base delta = Except.ok p) ∨
      calc_pos base delta =
        Except.error ⟨ErrorKind.invalidInput, "seek overflow"⟩) ∧
    (∀ (s : SharedFile Unit) (m : IoResult Nat),
      (s.seek (SeekFrom.fromCurrent delta) m).2.pos = s.pos ∧
      (s.seek (SeekFrom.fromEnd delta) m).2.pos = s.pos) := by
  refine ⟨?_, ?_, ?_⟩
  · rw [calc_pos_eq]
    unfold calc_pos_specPolicy
    by_cases h1 : base ≤ i64MaxN
    · by_cases h2 : i64Min ≤ (base : Int) + delta ∧ (base : Int) + delta ≤ i64Max
      · by_cases h3 : (0 : Int) ≤ (base : Int) + delta
        · rw [if_pos ⟨h1, h2.1, h2.2, h3⟩, if_neg (by unfold i64Max i64MaxN at *; omega),
            if_neg (by omega), if_neg (by omega)]
        · rw [if_neg (by tauto), if_neg (by unfold i64Max i64MaxN at *; omega),
            if_neg (by omega), if_pos (by omega)]
      · rw [if_neg (by tauto), if_neg (by unfold i64Max i64MaxN at *; omega),
          if_pos (by omega)]
    · rw [if_neg (by tauto), if_pos (by unfold i64Max i64MaxN at *; omega)]
  · rw [calc_pos_eq]
    by_cases h : base ≤ i64MaxN ∧ i64Min ≤ (base : Int) + delta ∧
        (base : Int) + delta ≤ i64Max ∧ 0 ≤ (base : Int) + delta
    · rw [if_pos h]
      exact Or.inl ⟨_, rfl⟩
    · rw [if_neg h]
      exact Or.inr rfl
  · intro s m
    refine ⟨rfl, ?_⟩
    cases m <;> rfl

/-- C5: a (successful) read returns the bytes given by the positional-read
model and advances the stored position by exactly the byte count; the
count never exceeds the buffer length, and a read returning 0 bytes leaves
the position unchanged. -/
theorem read_advances_by_count (s : SharedFile (List Nat)) (bufLen : Nat) :
    (s.read bufLen).1 = Except.ok (read_at s.file bufLen s.pos) ∧
    (s.read bufLen).2.pos = s.pos + (read_at s.file bufLen s.pos).length ∧
    (read_at s.file bufLen s.pos).length ≤ bufLen ∧
    ((read_at s.file bufLen s.pos).length = 0 →
      (s.read bufLen).2.pos = s.pos) := by
  refine ⟨rfl, rfl, ?_, ?_⟩
  · unfold read_at
    exact List.length_take_le _ _
  · intro h
    show s.pos + u64_from (read_at s.file bufLen s.pos).length = s.pos
    unfold u64_from
    omega

/-- C5 witness: reading 4 bytes at position 5 of a 3-byte file returns 0
bytes and leaves the position at 5. -/
theorem read_advances_by_count_witness :
    (SharedFile.read (⟨[1, 2, 3], 5⟩ : SharedFile (List Nat)) 4).2.pos = 5 :=
  (read_advances_by_count ⟨[1, 2, 3], 5⟩ 4).2.2.2 (by decide)

/-- C6: for two cursors duplicated from the same source over the same
file, a read on one leaves the other cursor untouched (its stored
position in particular), and both cursors, reading from position 0,
return identical bytes for identical requested lengths. -/
theorem cloned_cursors_independent (src a b : SharedFile (List Nat))
    (n k : Nat) (ha : a = src.clone) (hb : b = src.clone) :
    (readFst (a, b) n).2.2 = b ∧ (a.read k).1 = (b.read k).1 := by
  subst ha
  subst hb
  exact ⟨rfl, rfl⟩

/-- C6 witness: two clones of a cursor over the file `[1, 2]`; reading on
the first leaves the second equal to itself, and both reads agree. -/
theorem cloned_cursors_independent_witness :
    (readFst (SharedFile.clone ⟨[1, 2], 1⟩, SharedFile.clone ⟨[1, 2], 1⟩)
      2).2.2 = SharedFile.clone (⟨[1, 2], 1⟩ : SharedFile (List Nat)) ∧
    (SharedFile.read (SharedFile.clone (⟨[1, 2], 1⟩ : SharedFile (List Nat)))
      2).1 =
      (SharedFile.read (SharedFile.clone (⟨[1, 2], 1⟩ : SharedFile (List Nat)))
        2).1 :=
  cloned_cursors_independent ⟨[1, 2], 1⟩ _ _ 2 2 rfl rfl

/-- C7: duplicating a cursor yields a new cursor over the same underlying
file with position 0, and the original cursor passes through the
operation unchanged (its position in particular remains `P`). -/
theorem clone_resets_position (F : Type) (s : SharedFile F) :
    s.cloneOp.2.pos = 0 ∧ s.cloneOp.2.file = s.file ∧ s.cloneOp.1 = s :=
  ⟨rfl, rfl, rfl⟩

/-- C8: a seek in from-start mode with target `n` always succeeds,
returns `n`, sets the stored position to `n` unconditionally (whatever
the file length — the metadata outcome `m` is arbitrary, so no I/O is
consulted, and `n` past end-of-file is allowed), and leaves the handle
unchanged. -/
theorem seek_from_start_unconditional (F : Type) (s : SharedFile F)
    (n : Nat) (m : IoResult Nat) :
    (s.seek (SeekFrom.fromStart n) m).1 = Except.ok n ∧
    (s.seek (SeekFrom.fromStart n) m).2.pos = n ∧
    (s.seek (SeekFrom.fromStart n) m).2.file = s.file :=
  ⟨rfl, rfl, rfl⟩

/-- C9: for a cursor whose position fits in i64, a seek in from-current
mode with delta 0 succeeds, returns the current position, consults no
I/O (the metadata outcome `m` is arbitrary) and leaves the whole cursor
state unchanged. -/
theorem seek_current_zero_noop (F : Type) (s : SharedFile F)
    (m : IoResult Nat) (h : s.pos ≤ i64MaxN) :
    (s.seek (SeekFrom.fromCurrent 0) m).1 = Except.ok s.pos ∧
    (s.seek (SeekFrom.fromCurrent 0) m).2 = s := by
  refine ⟨?_, rfl⟩
  show calc_pos s.pos 0 = Except.ok s.pos
  rw [calc_pos_eq]
  have h' : (s.pos : Int) ≤ i64Max := by
    unfold i64Max
    unfold i64MaxN at h
    omega
  rw [if_pos ⟨h, by unfold i64Min; omega, by omega, by omega⟩]
  simp

/-- C9 witness: at a cursor with position 7, seek from-current 0 returns
7 and leaves the state unchanged. -/
theorem seek_current_zero_noop_witness :
    (SharedFile.seek (⟨(), 7⟩ : SharedFile Unit) (SeekFrom.fromCurrent 0)
      (Except.ok 0)).1 = Except.ok 7 ∧
    (SharedFile.seek (⟨(), 7⟩ : SharedFile Unit) (SeekFrom.fromCurrent 0)
      (Except.ok 0)).2 = ⟨(), 7⟩ :=
  seek_current_zero_noop Unit ⟨(), 7⟩ (Except.ok 0) (by decide)

/-- C10: under the positional-read model, the unchecked u64 addition
`pos + bytes_read` in `read` never overflows: if the position and the
file length are valid u64 values, so is the updated position. -/
theorem read_pos_no_overflow (s : SharedFile (List Nat)) (bufLen : Nat)
    (hpos : s.pos < u64Size) (hlen : s.file.length < u64Size) :
    (s.read bufLen).2.pos < u64Size := by
  have hle : (read_at s.file bufLen s.pos).length ≤ s.file.length - s.pos := by
    unfold read_at
    rw [List.length_take, List.length_drop]
    omega
  show s.pos + u64_from (read_at s.file bufLen s.pos).length < u64Size
  unfold u64_from
  omega

/-- C10 witness: at position 1 of a 3-byte file, a 2-byte read yields a
position that is still a valid u64 value. -/
theorem read_pos_no_overflow_witness :
    (SharedFile.read (⟨[1, 2, 3], 1⟩ : SharedFile (List Nat)) 2).2.pos <
      u64Size :=
  read_pos_no_overflow ⟨[1, 2, 3], 1⟩ 2 (by decide) (by decide)

end SharedFileSpec
